import Mathlib

/-
Verification development for the Locked-In Toolbox backend
(study-session lifecycle, tags, tasks, analytics, row-level authorization).

The definitions below are a shallow embedding of:
  - backend/supabase/migrations/001_initial_schema.sql
      (tables study_sessions, tasks, study_session_tags; CHECK constraints;
       trigger set_task_completed_at, BEFORE UPDATE on tasks)
  - backend/supabase/migrations/003_functions_and_views.sql
      (view user_study_stats; functions get_study_streak,
       calculate_session_duration with its BEFORE INSERT OR UPDATE trigger,
       get_task_completion_rate; row-level-security policies)
  - backend/src/services/studySession.service.ts (StudySessionService)
  - backend/src/services (TaskService)

Modelling conventions:
  - Timestamps (TIMESTAMPTZ) are epoch seconds, as Int.  DATE(t) under UTC is
    floor division by 86400.  The clock (NOW() / new Date()) and generated
    UUIDs are injected as explicit parameters.
  - The authenticated principal (auth.uid()) is an explicit String parameter;
    row-level-security USING / WITH CHECK clauses become filters on it.
  - PL/pgSQL assignment of a NUMERIC value to an INTEGER variable or column
    rounds to the nearest integer, ties away from zero; pgNumericToInt below
    is that cast.  ROUND(x, 2) on NUMERIC is pgRound2.
  - Fallible service calls (PostgREST .single(), constraint violations,
    policy violations) return Except ApiErr.
  - Columns no claim touches (ai_feedback, google_calendar_event_id,
    updated_at, and the flashcard tables) are omitted.
-/

namespace LockedIn

/-- PostgreSQL cast of a NUMERIC value to INTEGER: round to the nearest
integer, ties away from zero. -/
def pgNumericToInt (q : ℚ) : ℤ :=
if 0 ≤ q then ⌊q + 1/2⌋ else -⌊-q + 1/2⌋

/-- PostgreSQL ROUND(x, 2) on NUMERIC: round to two decimal places,
ties away from zero. -/
def pgRound2 (x : ℚ) : ℚ :=
(pgNumericToInt (x * 100) : ℚ) / 100

/-- Errors surfaced through the ApiResponse wrapper of the services. -/
inductive ApiErr where
| pgrstNoRows        -- PostgREST .single() found 0 rows (code PGRST116)
| pgrstMultipleRows  -- PostgREST .single() found more than one row
| uniqueViolation    -- PostgreSQL unique-constraint violation (23505)
| checkViolation     -- PostgreSQL CHECK-constraint violation (23514)
| rlsViolation       -- row-level-security WITH CHECK violation (42501)
deriving DecidableEq, Repr

/-- A row of public.study_sessions (001_initial_schema.sql). -/
structure Session where
  id : String
  user_id : String
  session_type : String
  start_time : Int
  end_time : Option Int
  duration_minutes : Option Int
  target_duration_minutes : Option Int
  session_notes : Option String
  mood_rating : Option Int
  productivity_rating : Option Int
  created_at : Int
deriving DecidableEq, Repr

/-- The CHECK constraints of public.study_sessions: valid_duration
(end_time IS NULL OR end_time > start_time) and the 1..5 ranges on
mood_rating and productivity_rating. -/
def sessionChecks (s : Session) : Bool :=
(match s.end_time with
 | some e => decide (s.start_time < e)
 | none => true)
&& (match s.mood_rating with
    | some m => decide (1 ≤ m ∧ m ≤ 5)
    | none => true)
&& (match s.productivity_rating with
    | some p => decide (1 ≤ p ∧ p ≤ 5)
    | none => true)

/-- Function calculate_session_duration (003_functions_and_views.sql),
fired by trigger calculate_duration_trigger BEFORE INSERT OR UPDATE on
study_sessions: when both timestamps are present, assign
EXTRACT(EPOCH FROM (end_time - start_time)) / 60 to the INTEGER column
duration_minutes (the NUMERIC-to-INTEGER assignment rounds).
start_time is a NOT NULL column, so only end_time is tested. -/
def calculate_session_duration (s : Session) : Session :=
match s.end_time with
| some e =>
  { s with duration_minutes := some (pgNumericToInt (((e : ℚ) - (s.start_time : ℚ)) / 60)) }
| none => s

/-- Insert payload StudySessionInsert (database.types.ts). -/
structure StudySessionInsert where
  user_id : String
  session_type : String
  start_time : Int
  end_time : Option Int := none
  target_duration_minutes : Option Int := none
  session_notes : Option String := none
  mood_rating : Option Int := none
  productivity_rating : Option Int := none
deriving DecidableEq, Repr

/-- Update payload StudySessionUpdate (database.types.ts).  The outer
Option is a field being absent from the payload (undefined); the inner
Option is an explicit SQL NULL.  Neither id nor user_id is updatable. -/
structure StudySessionUpdate where
  end_time : Option (Option Int) := none
  session_notes : Option (Option String) := none
  mood_rating : Option (Option Int) := none
  productivity_rating : Option (Option Int) := none
deriving DecidableEq, Repr

/-- Apply an UPDATE payload to a stored row (fields absent from the
payload keep their stored value). -/
def applySessionUpdate (s : Session) (u : StudySessionUpdate) : Session :=
{ s with
  end_time := u.end_time.getD s.end_time
  session_notes := u.session_notes.getD s.session_notes
  mood_rating := u.mood_rating.getD s.mood_rating
  productivity_rating := u.productivity_rating.getD s.productivity_rating }

/-- StudySessionService.createSession: INSERT INTO study_sessions.
Row-level security (WITH CHECK auth.uid() = user_id), the
calculate_duration_trigger, and the table CHECK constraints all apply.
The generated id and the created_at clock value are injected.
insertedRow is the stored row: the insert payload plus the
BEFORE INSERT trigger. -/
def insertedRow (newId : String) (createdAt : Int)
    (ins : StudySessionInsert) : Session :=
calculate_session_duration
  { id := newId
    user_id := ins.user_id
    session_type := ins.session_type
    start_time := ins.start_time
    end_time := ins.end_time
    duration_minutes := none
    target_duration_minutes := ins.target_duration_minutes
    session_notes := ins.session_notes
    mood_rating := ins.mood_rating
    productivity_rating := ins.productivity_rating
    created_at := createdAt }

def createSession (db : List Session) (principal : String) (newId : String)
    (createdAt : Int) (ins : StudySessionInsert) :
    Except ApiErr (Session × List Session) :=
if ins.user_id == principal then
  if sessionChecks (insertedRow newId createdAt ins) then
    Except.ok (insertedRow newId createdAt ins, db ++ [insertedRow newId createdAt ins])
  else Except.error ApiErr.checkViolation
else Except.error ApiErr.rlsViolation

/-- StudySessionService.updateSession: UPDATE study_sessions SET ...
WHERE id = sessionId, row-filtered by the RLS UPDATE policy
(USING auth.uid() = user_id); the calculate_duration_trigger fires on the
new row; .select().single() returns the updated row and errors unless
exactly one row was matched.  updatedRow is the stored result for one
matched row: the payload applied, then the BEFORE UPDATE trigger. -/
def updatedRow (s : Session) (u : StudySessionUpdate) : Session :=
calculate_session_duration (applySessionUpdate s u)

def updateSession (db : List Session) (principal sid : String)
    (u : StudySessionUpdate) : Except ApiErr (Session × List Session) :=
match db.filter (fun s => s.id == sid && s.user_id == principal) with
| [s] =>
  if sessionChecks (updatedRow s u) then
    Except.ok (updatedRow s u, db.map (fun r =>
      if r.id == sid && r.user_id == principal then updatedRow s u else r))
  else Except.error ApiErr.checkViolation
| [] => Except.error ApiErr.pgrstNoRows
| _ => Except.error ApiErr.pgrstMultipleRows

/-- The optional payload of StudySessionService.endSession. -/
structure EndSessionData where
  mood_rating : Option Int := none
  productivity_rating : Option Int := none
  session_notes : Option String := none
deriving DecidableEq, Repr

/-- StudySessionService.endSession: updateSession with
end_time = new Date().toISOString() (the injected now) merged with the
supplied fields. -/
def endSession (db : List Session) (principal sid : String) (now : Int)
    (d : EndSessionData) : Except ApiErr (Session × List Session) :=
updateSession db principal sid
  { end_time := some (some now)
    mood_rating := d.mood_rating.map some
    productivity_rating := d.productivity_rating.map some
    session_notes := d.session_notes.map some }

/-- StudySessionService.deleteSession: DELETE FROM study_sessions
WHERE id = sessionId, row-filtered by the RLS DELETE policy.  The service
reports success even when no row matched. -/
def deleteSession (db : List Session) (principal sid : String) :
    List Session :=
db.filter (fun s => !(s.id == sid && s.user_id == principal))

/-- The rows of study_sessions visible to a principal under the RLS
SELECT policy (USING auth.uid() = user_id). -/
def rlsVisibleSessions (db : List Session) (principal : String) :
    List Session :=
db.filter (fun s => s.user_id == principal)

/-- A row of public.study_session_tags (001_initial_schema.sql); the
generated id and created_at columns are omitted.  The table carries
UNIQUE(session_id, tag). -/
structure TagRow where
  session_id : String
  tag : String
deriving DecidableEq, Repr

/-- Remove leading and trailing whitespace from a character list. -/
def trimChars (l : List Char) : List Char :=
((l.dropWhile Char.isWhitespace).reverse.dropWhile Char.isWhitespace).reverse

/-- Tag normalization in StudySessionService.addSessionTags and
removeSessionTag: tag.toLowerCase().trim(), i.e. lower-case every
character, then strip leading and trailing whitespace (implemented
structurally over the character list). -/
def normalizeTag (t : String) : String :=
String.mk (trimChars (t.data.map Char.toLower))

/-- True when the parent session exists and belongs to the principal;
this is the EXISTS subquery of the RLS policies on study_session_tags. -/
def ownsSession (sessions : List Session) (principal sid : String) : Bool :=
sessions.any (fun s => s.id == sid && s.user_id == principal)

/-- StudySessionService.addSessionTags: normalize each tag, then INSERT
the batch into study_session_tags.  The insert is a plain insert (no
upsert / ON CONFLICT): it fails with a unique violation when any
normalized pair collides with a stored row or with another row of the
same batch, and the whole statement inserts nothing in that case.  The
RLS INSERT policy requires the parent session to belong to the caller. -/
def addSessionTags (sessions : List Session) (table : List TagRow)
    (principal sid : String) (tags : List String) :
    Except ApiErr (List TagRow × List TagRow) :=
let inserts := tags.map (fun t => TagRow.mk sid (normalizeTag t))
if ownsSession sessions principal sid then
  if (inserts.map (fun r => (r.session_id, r.tag))).Nodup
      ∧ ∀ r ∈ inserts, (r.session_id, r.tag) ∉ table.map (fun q => (q.session_id, q.tag)) then
    Except.ok (inserts, table ++ inserts)
  else Except.error ApiErr.uniqueViolation
else Except.error ApiErr.rlsViolation

/-- StudySessionService.getSessionTags: SELECT * FROM study_session_tags
WHERE session_id = sessionId, row-filtered by the RLS SELECT policy
(parent session owned by the caller). -/
def getSessionTags (sessions : List Session) (table : List TagRow)
    (principal sid : String) : List TagRow :=
table.filter (fun r => r.session_id == sid && ownsSession sessions principal r.session_id)

/-- A row of public.tasks (001_initial_schema.sql); description and the
timestamps no claim touches are omitted. -/
structure Task where
  id : String
  user_id : String
  session_id : Option String
  title : String
  is_completed : Bool
  completed_at : Option Int
  priority : Int
  due_date : Option Int
  order_index : Int
deriving DecidableEq, Repr

/-- The CHECK constraint title_not_empty on public.tasks. -/
def taskChecks (t : Task) : Bool :=
decide (0 < t.title.length)

/-- An INSERT into public.tasks.  is_completed is a column with DEFAULT
FALSE; the service-level TaskInsert type has no is_completed field, so
every task created through TaskService.createTask uses the default, but
the table itself accepts an explicit value.  completed_at is not part of
any insert payload and starts NULL; no trigger fires on INSERT
(task_completion_trigger is BEFORE UPDATE only). -/
structure TaskRowInsert where
  user_id : String
  session_id : Option String := none
  title : String
  is_completed : Bool := false
  priority : Int := 0
  due_date : Option Int := none
  order_index : Int := 0
deriving DecidableEq, Repr

/-- INSERT INTO public.tasks (RLS WITH CHECK auth.uid() = user_id, the
title CHECK constraint, completed_at starts NULL, no trigger).
insertedTaskRow is the stored row for an insert payload. -/
def insertedTaskRow (newId : String) (ins : TaskRowInsert) : Task :=
{ id := newId
  user_id := ins.user_id
  session_id := ins.session_id
  title := ins.title
  is_completed := ins.is_completed
  completed_at := none
  priority := ins.priority
  due_date := ins.due_date
  order_index := ins.order_index }

def insertTask (db : List Task) (principal newId : String)
    (ins : TaskRowInsert) : Except ApiErr (Task × List Task) :=
if ins.user_id == principal then
  if taskChecks (insertedTaskRow newId ins) then
    Except.ok (insertedTaskRow newId ins, db ++ [insertedTaskRow newId ins])
  else Except.error ApiErr.checkViolation
else Except.error ApiErr.rlsViolation

/-- Update payload TaskUpdate (database.types.ts): completed_at is not
updatable through the service API. -/
structure TaskUpdate where
  title : Option String := none
  is_completed : Option Bool := none
  priority : Option Int := none
  due_date : Option (Option Int) := none
  order_index : Option Int := none
  session_id : Option (Option String) := none
deriving DecidableEq, Repr

/-- Apply an UPDATE payload to a stored task row. -/
def applyTaskUpdate (t : Task) (u : TaskUpdate) : Task :=
{ t with
  title := u.title.getD t.title
  is_completed := u.is_completed.getD t.is_completed
  priority := u.priority.getD t.priority
  due_date := u.due_date.getD t.due_date
  order_index := u.order_index.getD t.order_index
  session_id := u.session_id.getD t.session_id }

/-- Function set_task_completed_at (001_initial_schema.sql), fired by
task_completion_trigger BEFORE UPDATE on tasks: set completed_at = NOW()
on the FALSE-to-TRUE transition, clear it whenever the new row has
is_completed = FALSE. -/
def set_task_completed_at (old new : Task) (now : Int) : Task :=
if new.is_completed && !old.is_completed then { new with completed_at := some now }
else if new.is_completed == false then { new with completed_at := none }
else new

/-- TaskService.updateTask: UPDATE tasks SET ... WHERE id = taskId,
row-filtered by the RLS UPDATE policy; the completed_at trigger fires;
.select().single() errors unless exactly one row matched.
updatedTaskRow is the stored result for one matched row: the payload
applied, then the BEFORE UPDATE trigger. -/
def updatedTaskRow (t : Task) (u : TaskUpdate) (now : Int) : Task :=
set_task_completed_at t (applyTaskUpdate t u) now

def updateTask (db : List Task) (principal tid : String) (now : Int)
    (u : TaskUpdate) : Except ApiErr (Task × List Task) :=
match db.filter (fun t => t.id == tid && t.user_id == principal) with
| [t] =>
  if taskChecks (updatedTaskRow t u now) then
    Except.ok (updatedTaskRow t u now, db.map (fun r =>
      if r.id == tid && r.user_id == principal then updatedTaskRow t u now else r))
  else Except.error ApiErr.checkViolation
| [] => Except.error ApiErr.pgrstNoRows
| _ => Except.error ApiErr.pgrstMultipleRows

/-- TaskService.toggleTaskCompletion: read the current is_completed of
the row, then update with its negation. -/
def toggleTaskCompletion (db : List Task) (principal tid : String)
    (now : Int) : Except ApiErr (Task × List Task) :=
match db.filter (fun t => t.id == tid && t.user_id == principal) with
| [t] => updateTask db principal tid now { is_completed := some (!t.is_completed) }
| [] => Except.error ApiErr.pgrstNoRows
| _ => Except.error ApiErr.pgrstMultipleRows

/-- The calendar date (UTC) of an epoch-seconds timestamp: DATE(t). -/
def dateOf (t : Int) : Int :=
Int.fdiv t 86400

/-- The EXISTS test inside get_study_streak: the user has at least one
ended session whose start_time falls on the checked date. -/
def hasEndedOn (db : List Session) (uid : String) (d : Int) : Bool :=
db.any (fun s => s.user_id == uid && dateOf s.start_time == d && s.end_time.isSome)

/-- The LOOP of get_study_streak (003_functions_and_views.sql): while an
ended session exists on the checked date, increment the streak and step
the date back one day.  The SQL loop carries no fuel; it terminates
because each counted day consumes at least one distinct session, so the
streak never exceeds the number of stored sessions and the fuel
db.length + 1 used by get_study_streak below is never exhausted. -/
def streakLoop (db : List Session) (uid : String) : Int → Nat → Nat
| _, 0 => 0
| d, Nat.succ n =>
  if hasEndedOn db uid d then streakLoop db uid (d - 1) n + 1 else 0

/-- Function get_study_streak(p_user_id) (003_functions_and_views.sql):
walk backward from CURRENT_DATE (the injected today). -/
def get_study_streak (db : List Session) (uid : String) (today : Int) : Nat :=
streakLoop db uid today (db.length + 1)

/-- The RPC surface of get_study_streak as called by
StudySessionService.getStudyStreak: the function is SECURITY DEFINER, so
it reads the whole study_sessions table (no row-level security), and its
body never consults the calling principal - only the p_user_id
argument. -/
def rpcGetStudyStreak (db : List Session) (_caller uid : String)
    (today : Int) : Nat :=
get_study_streak db uid today

/-- Function get_task_completion_rate(p_user_id)
(003_functions_and_views.sql): COUNT the user's tasks, return 0 when
there are none, otherwise ROUND((completed / total) * 100, 2). -/
def get_task_completion_rate (tasks : List Task) (uid : String) : ℚ :=
if (tasks.filter (fun t => t.user_id == uid)).length = 0 then 0
else
  pgRound2
    ((((tasks.filter (fun t => t.user_id == uid && t.is_completed)).length : ℚ)
      / ((tasks.filter (fun t => t.user_id == uid)).length : ℚ)) * 100)

/-- The RPC surface of get_task_completion_rate as called by
TaskService.getTaskCompletionRate: SECURITY DEFINER, whole table, and
the calling principal is never consulted. -/
def rpcGetTaskCompletionRate (tasks : List Task) (_caller uid : String) : ℚ :=
get_task_completion_rate tasks uid

/-- A row of the view public.user_study_stats
(003_functions_and_views.sql).  Aggregates follow SQL semantics: SUM and
AVG ignore NULL inputs and are NULL over an all-NULL column, AVG is
exact NUMERIC division, MAX of the NOT NULL start_time column is present
for every (necessarily nonempty) group. -/
structure UserStudyStatsRow where
  user_id : String
  total_sessions : Nat
  total_minutes_studied : Option Int
  avg_session_duration : Option ℚ
  avg_productivity_rating : Option ℚ
  avg_mood_rating : Option ℚ
  last_session_date : Option Int
  sessions_this_week : Nat
  sessions_this_month : Nat
deriving DecidableEq, Repr

/-- SQL SUM over a nullable INTEGER column. -/
def sqlSumInt (xs : List (Option Int)) : Option Int :=
match xs.filterMap id with
| [] => none
| ys => some (ys.foldl (· + ·) 0)

/-- SQL AVG over a nullable INTEGER column (NUMERIC result). -/
def sqlAvgInt (xs : List (Option Int)) : Option ℚ :=
match xs.filterMap id with
| [] => none
| ys => some ((ys.foldl (· + ·) 0 : ℚ) / (ys.length : ℚ))

/-- The row of the view user_study_stats for one user: the view scans
study_sessions WHERE end_time IS NOT NULL and groups by user_id, so a
user with no ended session has no row (GROUP BY emits no group for an
empty set of rows).  NOW() is the injected now. -/
def userStudyStatsRow (db : List Session) (now : Int) (uid : String) :
    Option UserStudyStatsRow :=
let g := db.filter (fun s => s.user_id == uid && s.end_time.isSome)
if g.isEmpty then none
else some
  { user_id := uid
    total_sessions := g.length
    total_minutes_studied := sqlSumInt (g.map (fun s => s.duration_minutes))
    avg_session_duration := sqlAvgInt (g.map (fun s => s.duration_minutes))
    avg_productivity_rating := sqlAvgInt (g.map (fun s => s.productivity_rating))
    avg_mood_rating := sqlAvgInt (g.map (fun s => s.mood_rating))
    last_session_date := (g.map (fun s => s.start_time)).max?
    sessions_this_week := (g.filter (fun s => now - 7 * 86400 ≤ s.start_time)).length
    sessions_this_month := (g.filter (fun s => now - 30 * 86400 ≤ s.start_time)).length }

/-- StudySessionService.getUserStats: SELECT * FROM user_study_stats
WHERE user_id = userId, with .single(): zero rows surface as a PostgREST
error, i.e. an ApiResponse with success = false. -/
def getUserStats (db : List Session) (now : Int) (uid : String) :
    Except ApiErr UserStudyStatsRow :=
match userStudyStatsRow db now uid with
| some r => Except.ok r
| none => Except.error ApiErr.pgrstNoRows

/-- The orderBy values accepted by StudySessionService.getUserSessions. -/
inductive OrderKey where
| start_time
| created_at
deriving DecidableEq, Repr

/-- The orderDirection values accepted by getUserSessions. -/
inductive OrderDir where
| asc
| desc
deriving DecidableEq, Repr

/-- The options object of StudySessionService.getUserSessions.  The
dateRange is the pair (start_date, end_date). -/
structure SessionQueryOptions where
  limit : Option Nat := none
  offset : Option Nat := none
  orderBy : Option OrderKey := none
  orderDirection : Option OrderDir := none
  dateRange : Option (Int × Int) := none
deriving Repr

/-- JavaScript truthiness of the optional numeric fields limit and
offset: undefined and 0 are both falsy. -/
def jsTruthy : Option Nat → Bool
| none => false
| some n => n != 0

/-- Insert one row into a list sorted by the comparator (kept after
existing rows it ties with). -/
def insertSorted (le : Session → Session → Bool) (x : Session) :
    List Session → List Session
| [] => [x]
| y :: ys => if le y x then y :: insertSorted le x ys else x :: y :: ys

/-- A stable sort implementing the ORDER BY of the query builder. -/
def sortRows (le : Session → Session → Bool) (l : List Session) :
    List Session :=
l.foldr (insertSorted le) []

/-- StudySessionService.getUserSessions: filter by user_id, apply the
optional start_time date-range (gte / lte, inclusive), apply ORDER BY
(default start_time descending), then pagination.  .limit(n) is applied
only when limit is truthy; .range(offset, offset + (limit or 10) - 1) is
applied only when offset is truthy and overrides the limit, which makes
the effective page OFFSET offset LIMIT (limit or 10). -/
def getUserSessions (db : List Session) (uid : String)
    (opts : SessionQueryOptions) : List Session :=
let rows := db.filter (fun s => s.user_id == uid)
let rows := match opts.dateRange with
  | some (a, b) => rows.filter (fun s => a ≤ s.start_time && s.start_time ≤ b)
  | none => rows
let key : Session → Int := match opts.orderBy.getD OrderKey.start_time with
  | OrderKey.start_time => fun s => s.start_time
  | OrderKey.created_at => fun s => s.created_at
let le : Session → Session → Bool :=
  match opts.orderDirection.getD OrderDir.desc with
  | OrderDir.asc => fun a b => key a ≤ key b
  | OrderDir.desc => fun a b => key b ≤ key a
let rows := sortRows le rows
if jsTruthy opts.offset then
  (rows.drop (opts.offset.getD 0)).take
    (if jsTruthy opts.limit then opts.limit.getD 0 else 10)
else if jsTruthy opts.limit then rows.take (opts.limit.getD 0)
else rows

/-! Helper lemmas. -/

/-- The NUMERIC-to-INTEGER cast lands within half a unit of its input. -/
theorem abs_sub_pgNumericToInt_le (q : ℚ) :
    |q - (pgNumericToInt q : ℚ)| ≤ 1 / 2 := by
unfold pgNumericToInt
split
case isTrue h =>
  have h1 : ((⌊q + 1/2⌋ : ℤ) : ℚ) ≤ q + 1/2 := Int.floor_le _
  have h2 : q + 1/2 < (⌊q + 1/2⌋ : ℚ) + 1 := Int.lt_floor_add_one _
  rw [abs_le]
  constructor <;> linarith
case isFalse h =>
  have h1 : ((⌊-q + 1/2⌋ : ℤ) : ℚ) ≤ -q + 1/2 := Int.floor_le _
  have h2 : -q + 1/2 < (⌊-q + 1/2⌋ : ℚ) + 1 := Int.lt_floor_add_one _
  rw [abs_le]
  constructor <;> push_cast <;> linarith

/-- Closed-form evaluation rule for the NUMERIC-to-INTEGER cast on a
nonnegative input. -/
theorem pgNumericToInt_eq_of (q : ℚ) (z : ℤ) (h0 : 0 ≤ q)
    (h1 : (z : ℚ) ≤ q + 1/2) (h2 : q + 1/2 < (z : ℚ) + 1) :
    pgNumericToInt q = z := by
unfold pgNumericToInt
rw [if_pos h0]
exact Int.floor_eq_iff.mpr ⟨h1, h2⟩

/-- calculate_session_duration leaves end_time unchanged. -/
theorem calc_end_time (s : Session) :
    (calculate_session_duration s).end_time = s.end_time := by
cases h : s.end_time <;> simp [calculate_session_duration, h]

/-- calculate_session_duration leaves start_time unchanged. -/
theorem calc_start_time (s : Session) :
    (calculate_session_duration s).start_time = s.start_time := by
cases h : s.end_time <;> simp [calculate_session_duration, h]

/-- calculate_session_duration leaves id unchanged. -/
theorem calc_id (s : Session) :
    (calculate_session_duration s).id = s.id := by
cases h : s.end_time <;> simp [calculate_session_duration, h]

/-- calculate_session_duration leaves user_id unchanged. -/
theorem calc_user_id (s : Session) :
    (calculate_session_duration s).user_id = s.user_id := by
cases h : s.end_time <;> simp [calculate_session_duration, h]

/-- When end_time is present the trigger stores the rounded minute count. -/
theorem calc_duration (s : Session) (e : Int) (he : s.end_time = some e) :
    (calculate_session_duration s).duration_minutes
      = some (pgNumericToInt (((e : ℚ) - (s.start_time : ℚ)) / 60)) := by
simp [calculate_session_duration, he]

/-- Shape of any trigger output with a present end_time. -/
theorem calc_shape (x : Session) (e : Int)
    (he : (calculate_session_duration x).end_time = some e) :
    (calculate_session_duration x).duration_minutes
      = some (pgNumericToInt (((e : ℚ)
          - ((calculate_session_duration x).start_time : ℚ)) / 60)) := by
rw [calc_end_time] at he
rw [calc_duration x e he, calc_start_time]

/-! C1.  The spec says duration_minutes is the floor of the elapsed
minutes.  The trigger assigns EXTRACT(EPOCH ...)/60, a NUMERIC, to the
INTEGER column duration_minutes, and that assignment cast rounds to the
nearest integer - it does not floor. -/

/-- Insert payload used by the C1 counterexample: a session created with
an end_time 90 seconds (1.5 minutes) after its start_time. -/
def insertNinetySeconds : StudySessionInsert :=
{ user_id := "u", session_type := "pomodoro", start_time := 0, end_time := some 90 }

/-- Counterexample to C1: creating a session whose end_time is 90
seconds after its start_time persists duration_minutes = 2 (the rounded
value), while floor((end_time - start_time) in seconds / 60) = 1. -/
theorem duration_minutes_not_floor :
    (createSession [] "u" "s1" 0 insertNinetySeconds).map
        (fun p => p.1.duration_minutes) = Except.ok (some 2)
    ∧ ⌊(((90 : ℚ) - 0) / 60 : ℚ)⌋ = 1 ∧ (2 : ℤ) ≠ 1 := by
refine ⟨?_, ?_, by decide⟩
· have hpg : pgNumericToInt ((((90 : Int) : ℚ) - ((0 : Int) : ℚ)) / 60) = 2 := by
    apply pgNumericToInt_eq_of <;> norm_num
  have hrow : insertedRow "s1" 0 insertNinetySeconds =
      { id := "s1", user_id := "u", session_type := "pomodoro", start_time := 0,
        end_time := some 90, duration_minutes := some 2,
        target_duration_minutes := none, session_notes := none,
        mood_rating := none, productivity_rating := none, created_at := 0 } := by
    unfold insertedRow insertNinetySeconds calculate_session_duration
    simp only []
    rw [hpg]
  unfold createSession
  rw [hrow]
  rfl
· have h32 : (((90 : ℚ) - 0) / 60 : ℚ) = 3 / 2 := by norm_num
  rw [h32]
  exact Int.floor_eq_iff.mpr (by norm_num)

/-- C1, amended: whenever both timestamps are present, the persisted
duration_minutes is (end_time - start_time) in seconds / 60 rounded to
the nearest integer (PostgreSQL NUMERIC-to-INTEGER assignment, ties away
from zero) - within half a minute of the exact value - and it is
recomputed by the same trigger on create-with-end-time and on every
update that sets end_time. -/
theorem duration_minutes_rounds :
    (∀ s : Session, ∀ e : Int, s.end_time = some e →
      ∃ d : ℤ, (calculate_session_duration s).duration_minutes = some d
        ∧ |((e : ℚ) - (s.start_time : ℚ)) / 60 - (d : ℚ)| ≤ 1 / 2)
    ∧ (∀ db principal newId createdAt ins r db', ∀ e : Int,
        createSession db principal newId createdAt ins = Except.ok (r, db') →
        r.end_time = some e →
        r.duration_minutes = some (pgNumericToInt (((e : ℚ) - (r.start_time : ℚ)) / 60)))
    ∧ (∀ db principal sid u r db', ∀ e : Int,
        updateSession db principal sid u = Except.ok (r, db') →
        r.end_time = some e →
        r.duration_minutes = some (pgNumericToInt (((e : ℚ) - (r.start_time : ℚ)) / 60))) := by
refine ⟨?_, ?_, ?_⟩
· intro s e he
  exact ⟨_, calc_duration s e he, abs_sub_pgNumericToInt_le _⟩
· intro db principal newId createdAt ins r db' e h he
  unfold createSession at h
  split at h
  · split at h
    · rw [Except.ok.injEq, Prod.mk.injEq] at h
      rw [← h.1] at he ⊢
      exact calc_shape _ e he
    · exact absurd h (by simp)
  · exact absurd h (by simp)
· intro db principal sid u r db' e h he
  unfold updateSession at h
  split at h
  case h_1 s hf =>
    split at h
    · rw [Except.ok.injEq, Prod.mk.injEq] at h
      rw [← h.1] at he ⊢
      exact calc_shape _ e he
    · exact absurd h (by simp)
  case h_2 => exact absurd h (by simp)
  case h_3 => exact absurd h (by simp)

/-- Witness for the amended C1 theorem at a concrete input. -/
theorem duration_minutes_rounds_witness :
    ∃ d : ℤ, (calculate_session_duration
        { id := "s1", user_id := "u", session_type := "pomodoro",
          start_time := 0, end_time := some 90, duration_minutes := none,
          target_duration_minutes := none, session_notes := none,
          mood_rating := none, productivity_rating := none,
          created_at := 0 }).duration_minutes = some d
      ∧ |((90 : ℚ) - ((0 : Int) : ℚ)) / 60 - (d : ℚ)| ≤ 1 / 2 :=
duration_minutes_rounds.1 _ 90 rfl

/-! C2.  The streak walks backward from the current day over days that
have at least one ended session. -/

theorem streakLoop_pos (db : List Session) (uid : String) (d : Int) (n : Nat)
    (h : hasEndedOn db uid d = true) :
    streakLoop db uid d (n + 1) = streakLoop db uid (d - 1) n + 1 := by
simp [streakLoop, h]

theorem streakLoop_stop (db : List Session) (uid : String) (d : Int) (n : Nat)
    (h : hasEndedOn db uid d = false) :
    streakLoop db uid d (n + 1) = 0 := by
simp [streakLoop, h]

theorem exists_session_on (db : List Session) (uid : String) (d : Int)
    (h : hasEndedOn db uid d = true) :
    ∃ s ∈ db, dateOf s.start_time = d := by
unfold hasEndedOn at h
rw [List.any_eq_true] at h
obtain ⟨s, hs, hp⟩ := h
refine ⟨s, hs, ?_⟩
simp only [Bool.and_eq_true, beq_iff_eq] at hp
exact hp.1.2

theorem three_le_length_of_mem {α : Type} [DecidableEq α] {l : List α}
    {a b c : α} (ha : a ∈ l) (hb : b ∈ l) (hc : c ∈ l)
    (hab : a ≠ b) (hac : a ≠ c) (hbc : b ≠ c) : 3 ≤ l.length := by
have hsub : ({a, b, c} : Finset α) ⊆ l.toFinset := by
  intro x hx
  rw [List.mem_toFinset]
  rcases Finset.mem_insert.mp hx with rfl | hx
  · exact ha
  rcases Finset.mem_insert.mp hx with rfl | hx
  · exact hb
  rw [Finset.mem_singleton] at hx
  subst hx
  exact hc
have hcard : ({a, b, c} : Finset α).card = 3 := by
  rw [Finset.card_insert_of_not_mem (by simp [hab, hac]),
      Finset.card_insert_of_not_mem (by simp [hbc]),
      Finset.card_singleton]
calc 3 = ({a, b, c} : Finset α).card := hcard.symm
  _ ≤ l.toFinset.card := Finset.card_le_card hsub
  _ ≤ l.length := l.toFinset_card_le

/-- C2: get_study_streak counts consecutive calendar days walking
backward from the current day over days having at least one ended
session: with ended sessions on days D, D-1 and D-2 but none on D-3 it
returns 3, and with no ended session on day D it returns 0 regardless of
earlier days. -/
theorem get_study_streak_spec :
    (∀ (db : List Session) (uid : String) (today : Int),
      hasEndedOn db uid today = true →
      hasEndedOn db uid (today - 1) = true →
      hasEndedOn db uid (today - 2) = true →
      hasEndedOn db uid (today - 3) = false →
      get_study_streak db uid today = 3)
    ∧ (∀ (db : List Session) (uid : String) (today : Int),
      hasEndedOn db uid today = false →
      get_study_streak db uid today = 0) := by
constructor
· intro db uid today h0 h1 h2 h3
  obtain ⟨s0, hs0, hd0⟩ := exists_session_on db uid today h0
  obtain ⟨s1, hs1, hd1⟩ := exists_session_on db uid (today - 1) h1
  obtain ⟨s2, hs2, hd2⟩ := exists_session_on db uid (today - 2) h2
  have hlen : 3 ≤ db.length := by
    apply three_le_length_of_mem hs0 hs1 hs2
    · intro hq; rw [hq] at hd0; omega
    · intro hq; rw [hq] at hd0; omega
    · intro hq; rw [hq] at hd1; omega
  obtain ⟨k, hk⟩ : ∃ k, db.length = k + 3 := ⟨db.length - 3, by omega⟩
  have e1 : today - 1 - 1 = today - 2 := by ring
  have e2 : today - 1 - 1 - 1 = today - 3 := by ring
  have h2a : hasEndedOn db uid (today - 1 - 1) = true := by rw [e1]; exact h2
  have h3a : hasEndedOn db uid (today - 1 - 1 - 1) = false := by rw [e2]; exact h3
  rw [get_study_streak, show db.length + 1 = k + 1 + 1 + 1 + 1 from by omega,
      streakLoop_pos _ _ _ _ h0, streakLoop_pos _ _ _ _ h1,
      streakLoop_pos _ _ _ _ h2a, streakLoop_stop _ _ _ _ h3a]
· intro db uid today h
  rw [get_study_streak]
  exact streakLoop_stop _ _ _ _ h

/-- Three ended sessions of user u on days 0, -1 and -2 (epoch-day
numbers), none on day -3. -/
def sessionOnDay (i : String) (t : Int) : Session :=
{ id := i, user_id := "u", session_type := "pomodoro", start_time := t,
  end_time := some (t + 60), duration_minutes := some 1,
  target_duration_minutes := none, session_notes := none,
  mood_rating := none, productivity_rating := none, created_at := t }

def streakDbThree : List Session :=
[sessionOnDay "a" 0, sessionOnDay "b" (-86400), sessionOnDay "c" (-172800)]

/-- Ended sessions of user u on days -1 through -5 but none on day 0. -/
def streakDbFive : List Session :=
[sessionOnDay "b" (-86400), sessionOnDay "c" (-172800),
 sessionOnDay "d" (-259200), sessionOnDay "e" (-345600),
 sessionOnDay "f" (-432000)]

/-- Witness for C2 at concrete stores with today = day 0. -/
theorem get_study_streak_spec_witness :
    get_study_streak streakDbThree "u" 0 = 3
    ∧ get_study_streak streakDbFive "u" 0 = 0 :=
⟨get_study_streak_spec.1 streakDbThree "u" 0 (by decide) (by decide)
    (by decide) (by decide),
 get_study_streak_spec.2 streakDbFive "u" 0 (by decide)⟩

/-! C3.  Authorization.  Table reads and writes are gated by row-level
security, but the two SECURITY DEFINER aggregate functions take an
arbitrary p_user_id and never consult the calling principal. -/

/-- Evaluation rule for get_task_completion_rate once both COUNTs and
the rounded numerator are known. -/
theorem completion_rate_eval (tasks : List Task) (uid : String)
    (c tot : Nat) (z : ℤ)
    (hc : (tasks.filter (fun t => t.user_id == uid && t.is_completed)).length = c)
    (ht : (tasks.filter (fun t => t.user_id == uid)).length = tot)
    (htot : ¬ tot = 0)
    (hz : pgNumericToInt ((c : ℚ) / (tot : ℚ) * 100 * 100) = z) :
    get_task_completion_rate tasks uid = (z : ℚ) / 100 := by
unfold get_task_completion_rate pgRound2
rw [ht, hc, if_neg htot, hz]

/-- An ended session belonging to user alice on day 0. -/
def exampleSessionA : Session :=
{ id := "sA", user_id := "alice", session_type := "pomodoro",
  start_time := 0, end_time := some 60, duration_minutes := some 1,
  target_duration_minutes := none, session_notes := none,
  mood_rating := none, productivity_rating := none, created_at := 0 }

/-- A completed task belonging to user alice. -/
def exampleTaskA : Task :=
{ id := "tA", user_id := "alice", session_id := none, title := "read",
  is_completed := true, completed_at := some 0, priority := 0,
  due_date := none, order_index := 0 }

/-- Counterexample to C3: the derived aggregates do not pass a
principal-equals-owner check.  Principal bob calls the streak and
completion-rate RPCs with p_user_id = alice: both calls succeed and
their results depend on alice's stored data (streak 1 versus 0 on the
empty store; completion rate 100), even though the row-level-security
SELECT filter shows bob no rows of alice at all. -/
theorem security_definer_rpc_leak :
    rpcGetStudyStreak [exampleSessionA] "bob" "alice" 0 = 1
    ∧ rpcGetStudyStreak [] "bob" "alice" 0 = 0
    ∧ rlsVisibleSessions [exampleSessionA] "bob" = []
    ∧ rpcGetTaskCompletionRate [exampleTaskA] "bob" "alice" = 100
    ∧ "bob" ≠ "alice" := by
refine ⟨by decide, by decide, by decide, ?_, by decide⟩
have h := completion_rate_eval [exampleTaskA] "alice" 1 1 10000 rfl rfl
  (by decide)
  (pgNumericToInt_eq_of _ _ (by norm_num) (by norm_num) (by norm_num))
rw [rpcGetTaskCompletionRate, h]
norm_num

/-- C3, amended: direct table operations on study_sessions,
study_session_tags and tasks are gated by the row-level-security
policies - a principal sees only rows whose user_id is their own, a
successful update or delete can only touch their own rows and leaves
every other owner's rows untouched, and a tag insert into a session the
caller does not own is rejected - but the SECURITY DEFINER functions
get_study_streak and get_task_completion_rate answer for an arbitrary
p_user_id without ever consulting the calling principal, so a different
principal can read these aggregates of any owner's data. -/
theorem rls_gates_tables_not_rpcs :
    (∀ (db : List Session) (p : String), ∀ s ∈ rlsVisibleSessions db p,
      s.user_id = p)
    ∧ (∀ (db : List Session) (p sid : String) (u : StudySessionUpdate)
        (r : Session) (db' : List Session),
        updateSession db p sid u = Except.ok (r, db') →
        r.user_id = p ∧ ∀ s ∈ db, s.user_id ≠ p → s ∈ db')
    ∧ (∀ (db : List Session) (p sid : String), ∀ s ∈ db,
        s.user_id ≠ p → s ∈ deleteSession db p sid)
    ∧ (∀ (sessions : List Session) (table : List TagRow) (p sid : String)
        (tags : List String), ownsSession sessions p sid = false →
        addSessionTags sessions table p sid tags = Except.error ApiErr.rlsViolation)
    ∧ (∀ (db : List Session) (c1 c2 uid : String) (today : Int),
        rpcGetStudyStreak db c1 uid today = rpcGetStudyStreak db c2 uid today)
    ∧ (∀ (tasks : List Task) (c1 c2 uid : String),
        rpcGetTaskCompletionRate tasks c1 uid = rpcGetTaskCompletionRate tasks c2 uid) := by
refine ⟨?_, ?_, ?_, ?_, ?_, ?_⟩
· intro db p s hs
  rw [rlsVisibleSessions] at hs
  have := (List.mem_filter.mp hs).2
  exact beq_iff_eq.mp this
· intro db p sid u r db' h
  unfold updateSession at h
  split at h
  case h_1 s hf =>
    split at h
    · rw [Except.ok.injEq, Prod.mk.injEq] at h
      constructor
      · have hs : s ∈ db.filter (fun s => s.id == sid && s.user_id == p) := by
          rw [hf]; exact List.mem_singleton.mpr rfl
        have hp := (List.mem_filter.mp hs).2
        rw [Bool.and_eq_true, beq_iff_eq, beq_iff_eq] at hp
        rw [← h.1]
        unfold updatedRow
        rw [calc_user_id]
        exact hp.2
      · intro x hx hxp
        rw [← h.2]
        have hcond : (x.id == sid && x.user_id == p) = false := by
          have : (x.user_id == p) = false := beq_eq_false_iff_ne.mpr hxp
          simp [this]
        have : (fun r => if (r.id == sid && r.user_id == p) = true
            then updatedRow s u else r) x = x := by
          simp [hcond]
        rw [← this]
        exact List.mem_map_of_mem _ hx
    · exact absurd h (by simp)
  case h_2 => exact absurd h (by simp)
  case h_3 => exact absurd h (by simp)
· intro db p sid s hs hsp
  rw [deleteSession]
  rw [List.mem_filter]
  refine ⟨hs, ?_⟩
  have : (s.user_id == p) = false := beq_eq_false_iff_ne.mpr hsp
  simp [this]
· intro sessions table p sid tags h
  unfold addSessionTags
  rw [h]
  simp
· intro db c1 c2 uid today
  rfl
· intro tasks c1 c2 uid
  rfl

/-- Witness for the amended C3 theorem at concrete inputs: bob cannot
delete alice's session (the row survives), and bob's caller identity is
irrelevant to the streak RPC. -/
theorem rls_gates_tables_not_rpcs_witness :
    exampleSessionA ∈ deleteSession [exampleSessionA] "bob" "sA"
    ∧ rpcGetStudyStreak [exampleSessionA] "bob" "alice" 0
        = rpcGetStudyStreak [exampleSessionA] "carol" "alice" 0 :=
⟨rls_gates_tables_not_rpcs.2.2.1 [exampleSessionA] "bob" "sA"
    exampleSessionA (by decide) (by decide),
 rls_gates_tables_not_rpcs.2.2.2.2.1 [exampleSessionA] "bob" "carol" "alice" 0⟩

/-! C4 and C8.  Tag normalization, the unique constraint, and the
absence of an empty-tag validation. -/

/-- Success case of addSessionTags: the caller owns the session, the
normalized tags are pairwise distinct and none is already stored. -/
theorem addSessionTags_ok (sessions : List Session) (table : List TagRow)
    (p sid : String) (tags : List String)
    (hown : ownsSession sessions p sid = true)
    (hnd : (tags.map normalizeTag).Nodup)
    (hfr : ∀ t ∈ tags,
      (sid, normalizeTag t) ∉ table.map (fun q => (q.session_id, q.tag))) :
    addSessionTags sessions table p sid tags
      = Except.ok (tags.map (fun t => TagRow.mk sid (normalizeTag t)),
          table ++ tags.map (fun t => TagRow.mk sid (normalizeTag t))) := by
have hinj : Function.Injective (fun x : String => (sid, x)) := by
  intro a b hab
  simpa using hab
have hnd' : ((tags.map (fun t => TagRow.mk sid (normalizeTag t))).map
    (fun r => (r.session_id, r.tag))).Nodup := by
  rw [List.map_map]
  have : ((fun r : TagRow => (r.session_id, r.tag))
      ∘ (fun t => TagRow.mk sid (normalizeTag t)))
      = ((fun x : String => (sid, x)) ∘ normalizeTag) := rfl
  rw [this, ← List.map_map]
  exact hnd.map hinj
have hfr' : ∀ r ∈ tags.map (fun t => TagRow.mk sid (normalizeTag t)),
    (r.session_id, r.tag) ∉ table.map (fun q => (q.session_id, q.tag)) := by
  intro r hr
  rw [List.mem_map] at hr
  obtain ⟨t, ht, rfl⟩ := hr
  exact hfr t ht
unfold addSessionTags
rw [hown]
simp only [if_true]
rw [if_pos ⟨hnd', hfr'⟩]

/-- Failure case of addSessionTags: two supplied tags collide after
normalization, so the batch violates UNIQUE(session_id, tag). -/
theorem addSessionTags_dup_error (sessions : List Session)
    (table : List TagRow) (p sid : String) (tags : List String)
    (hown : ownsSession sessions p sid = true)
    (hnd : ¬ (tags.map normalizeTag).Nodup) :
    addSessionTags sessions table p sid tags
      = Except.error ApiErr.uniqueViolation := by
unfold addSessionTags
rw [hown]
simp only [if_true]
rw [if_neg]
intro hAB
apply hnd
have h := hAB.1
rw [List.map_map] at h
have heq : ((fun r : TagRow => (r.session_id, r.tag))
    ∘ (fun t => TagRow.mk sid (normalizeTag t)))
    = ((fun x : String => (sid, x)) ∘ normalizeTag) := rfl
rw [heq, ← List.map_map] at h
exact h.of_map

/-- getSessionTags over a table extended with rows of the queried owned
session returns the old answer plus those rows. -/
theorem getSessionTags_append (sessions : List Session)
    (table rows : List TagRow) (p sid : String)
    (hown : ownsSession sessions p sid = true)
    (hrows : ∀ r ∈ rows, r.session_id = sid) :
    getSessionTags sessions (table ++ rows) p sid
      = getSessionTags sessions table p sid ++ rows := by
unfold getSessionTags
rw [List.filter_append]
congr 1
rw [List.filter_eq_self]
intro r hr
rw [hrows r hr]
simp [hown]

/-- A session with id s1 owned by user u, used by the tag examples. -/
def exampleSessionU : Session :=
{ id := "s1", user_id := "u", session_type := "pomodoro",
  start_time := 0, end_time := some 60, duration_minutes := some 1,
  target_duration_minutes := none, session_notes := none,
  mood_rating := none, productivity_rating := none, created_at := 0 }

/-- Counterexample to C4: on the owner's own session, addTags with
Math and "math " (space) - both "math" after normalization - does not
deduplicate: the batch insert hits UNIQUE(session_id, tag), the whole
call fails, and a subsequent listTags yields the empty set rather than
the set containing "math". -/
theorem addTags_dup_not_deduplicated :
    addSessionTags [exampleSessionU] [] "u" "s1" ["Math", "math "]
      = Except.error ApiErr.uniqueViolation
    ∧ getSessionTags [exampleSessionU] [] "u" "s1" = [] :=
⟨rfl, rfl⟩

/-- C4, amended: addTags normalizes each tag (lower-case, then trim),
but duplicate (session_id, tag) pairs arising after normalization are
not silently deduplicated: the insert is a plain insert into a table
with UNIQUE(session_id, tag), so such a batch fails with a unique
violation and stores nothing; only when the normalized tags are pairwise
distinct and not already stored does addTags succeed, and listTags then
yields exactly the previously stored tags plus the normalized new
ones. -/
theorem addSessionTags_normalize_dedup :
    (∀ (sessions : List Session) (table : List TagRow) (p sid : String)
      (tags : List String),
      ownsSession sessions p sid = true →
      (tags.map normalizeTag).Nodup →
      (∀ t ∈ tags,
        (sid, normalizeTag t) ∉ table.map (fun q => (q.session_id, q.tag))) →
      addSessionTags sessions table p sid tags
        = Except.ok (tags.map (fun t => TagRow.mk sid (normalizeTag t)),
            table ++ tags.map (fun t => TagRow.mk sid (normalizeTag t)))
      ∧ getSessionTags sessions
          (table ++ tags.map (fun t => TagRow.mk sid (normalizeTag t))) p sid
        = getSessionTags sessions table p sid
            ++ tags.map (fun t => TagRow.mk sid (normalizeTag t)))
    ∧ (∀ (sessions : List Session) (table : List TagRow) (p sid : String)
      (tags : List String),
      ownsSession sessions p sid = true →
      ¬ (tags.map normalizeTag).Nodup →
      addSessionTags sessions table p sid tags
        = Except.error ApiErr.uniqueViolation) := by
constructor
· intro sessions table p sid tags hown hnd hfr
  refine ⟨addSessionTags_ok sessions table p sid tags hown hnd hfr, ?_⟩
  apply getSessionTags_append sessions table _ p sid hown
  intro r hr
  rw [List.mem_map] at hr
  obtain ⟨t, ht, rfl⟩ := hr
  rfl
· intro sessions table p sid tags hown hnd
  exact addSessionTags_dup_error sessions table p sid tags hown hnd

/-- Witness for the amended C4 theorem: adding the distinct normalized
tags math and logic to an owned session succeeds and round-trips. -/
theorem addSessionTags_normalize_dedup_witness :
    addSessionTags [exampleSessionU] [] "u" "s1" ["Math", "Logic"]
      = Except.ok ([TagRow.mk "s1" "math", TagRow.mk "s1" "logic"],
          [TagRow.mk "s1" "math", TagRow.mk "s1" "logic"])
    ∧ getSessionTags [exampleSessionU]
        [TagRow.mk "s1" "math", TagRow.mk "s1" "logic"] "u" "s1"
      = [TagRow.mk "s1" "math", TagRow.mk "s1" "logic"] :=
(addSessionTags_normalize_dedup.1 [exampleSessionU] [] "u" "s1"
  ["Math", "Logic"] (by decide) (by decide) (by decide))

/-- Counterexample to C8: a tag that is empty after normalization is not
rejected with a validation error - the whitespace-only tag "   " is
normalized to the empty string and stored. -/
theorem addTags_empty_tag_stored :
    normalizeTag "   " = ""
    ∧ addSessionTags [exampleSessionU] [] "u" "s1" ["   "]
        = Except.ok ([TagRow.mk "s1" ""], [TagRow.mk "s1" ""]) :=
⟨rfl, rfl⟩

/-- C8, amended: addTags performs no emptiness validation: any supplied
tag that normalizes to the empty string is inserted like any other value
(subject only to the unique constraint), so a stored tag can be the
empty string. -/
theorem addSessionTags_no_empty_validation :
    ∀ (sessions : List Session) (table : List TagRow) (p sid t : String),
      ownsSession sessions p sid = true →
      normalizeTag t = "" →
      (sid, "") ∉ table.map (fun q => (q.session_id, q.tag)) →
      addSessionTags sessions table p sid [t]
        = Except.ok ([TagRow.mk sid ""], table ++ [TagRow.mk sid ""]) := by
intro sessions table p sid t hown hemp hfr
have h := addSessionTags_ok sessions table p sid [t] hown
  (by simp) (by intro x hx; rw [List.mem_singleton] at hx; subst hx; rw [hemp]; exact hfr)
rw [h]
simp [hemp]

/-- Witness for the amended C8 theorem at a concrete whitespace tag. -/
theorem addSessionTags_no_empty_validation_witness :
    addSessionTags [exampleSessionU] [] "u" "s1" [" "]
      = Except.ok ([TagRow.mk "s1" ""], [TagRow.mk "s1" ""]) :=
addSessionTags_no_empty_validation [exampleSessionU] [] "u" "s1" " "
  (by decide) (by decide) (by decide)

/-! C6.  userStats over an owner with zero ended sessions. -/

/-- An active (not yet ended) session of user u. -/
def exampleActiveU : Session :=
{ id := "s2", user_id := "u", session_type := "stopwatch", start_time := 0,
  end_time := none, duration_minutes := none, target_duration_minutes := none,
  session_notes := none, mood_rating := none, productivity_rating := none,
  created_at := 0 }

/-- Counterexample to C6: for an owner who has a stored session but no
ended one, getUserStats does not succeed with absent averages - the
stats view has no row for the owner and the .single() fetch surfaces a
hard failure (success = false). -/
theorem getUserStats_zero_ended_error_cex :
    getUserStats [exampleActiveU] 0 "u" = Except.error ApiErr.pgrstNoRows
    ∧ exampleActiveU.user_id = "u" ∧ exampleActiveU.end_time = none :=
⟨rfl, rfl, rfl⟩

/-- C6, amended: for an owner with zero ended sessions the view
user_study_stats contains no row for that owner, so getUserStats -
which fetches with .single() - returns a hard failure (an ApiResponse
with success = false), not a success carrying absent averages; no
success value distinguishes empty-but-valid from this failure. -/
theorem getUserStats_zero_ended_is_error :
    ∀ (db : List Session) (now : Int) (uid : String),
      (∀ s ∈ db, s.user_id = uid → s.end_time = none) →
      getUserStats db now uid = Except.error ApiErr.pgrstNoRows := by
intro db now uid h
have hnil : db.filter (fun s => s.user_id == uid && s.end_time.isSome) = [] := by
  rw [List.filter_eq_nil_iff]
  intro s hs hp
  rw [Bool.and_eq_true, beq_iff_eq] at hp
  have he := h s hs hp.1
  rw [he] at hp
  exact absurd hp.2 (by simp)
unfold getUserStats userStudyStatsRow
rw [hnil]
rfl

/-- Witness for the amended C6 theorem on the empty store. -/
theorem getUserStats_zero_ended_is_error_witness :
    getUserStats [] 5 "w" = Except.error ApiErr.pgrstNoRows :=
getUserStats_zero_ended_is_error [] 5 "w" (by simp)

/-! C7.  Task completion rate. -/

theorem length_filter_and_le {α : Type} (l : List α) (p q : α → Bool) :
    (l.filter (fun a => p a && q a)).length ≤ (l.filter p).length := by
induction l with
| nil => simp
| cons a t ih =>
  cases hp : p a <;> cases hq : q a <;>
    simp [List.filter_cons, hp, hq] <;> omega

theorem pgNumericToInt_nonneg (q : ℚ) (h : 0 ≤ q) :
    0 ≤ pgNumericToInt q := by
unfold pgNumericToInt
rw [if_pos h]
apply Int.le_floor.mpr
push_cast
linarith

theorem pgNumericToInt_le_of_le (q : ℚ) (B : ℤ) (h0 : 0 ≤ q)
    (h : q ≤ (B : ℚ)) : pgNumericToInt q ≤ B := by
unfold pgNumericToInt
rw [if_pos h0]
have hlt : ⌊q + 1/2⌋ < B + 1 := Int.floor_lt.mpr (by push_cast; linarith)
omega

/-- Three tasks of user u: one completed, two pending. -/
def exTask (i : String) (c : Bool) : Task :=
{ id := i, user_id := "u", session_id := none, title := "t",
  is_completed := c, completed_at := if c then some 0 else none,
  priority := 0, due_date := none, order_index := 0 }

def exampleTasksThree : List Task :=
[exTask "t1" true, exTask "t2" false, exTask "t3" false]

/-- C7: get_task_completion_rate always lands in the interval from 0 to
100, returns 0 for an owner with zero tasks (not an error or an absent
value), and returns 33.33 for three tasks of which one is completed. -/
theorem taskCompletionRate_spec :
    (∀ (tasks : List Task) (uid : String),
      0 ≤ get_task_completion_rate tasks uid
      ∧ get_task_completion_rate tasks uid ≤ 100)
    ∧ (∀ (tasks : List Task) (uid : String),
      (tasks.filter (fun t => t.user_id == uid)).length = 0 →
      get_task_completion_rate tasks uid = 0)
    ∧ get_task_completion_rate exampleTasksThree "u" = 3333 / 100 := by
refine ⟨?_, ?_, ?_⟩
· intro tasks uid
  unfold get_task_completion_rate
  by_cases h : (tasks.filter (fun t => t.user_id == uid)).length = 0
  · rw [if_pos h]
    norm_num
  · rw [if_neg h]
    unfold pgRound2
    have hcle : ((tasks.filter (fun t => t.user_id == uid && t.is_completed)).length : ℚ)
        ≤ ((tasks.filter (fun t => t.user_id == uid)).length : ℚ) := by
      exact_mod_cast length_filter_and_le tasks _ _
    have htpos : (0 : ℚ) < ((tasks.filter (fun t => t.user_id == uid)).length : ℚ) := by
      have := Nat.pos_of_ne_zero h
      exact_mod_cast this
    have hc0 : (0 : ℚ) ≤ ((tasks.filter (fun t => t.user_id == uid && t.is_completed)).length : ℚ) := by
      positivity
    have hratio : ((tasks.filter (fun t => t.user_id == uid && t.is_completed)).length : ℚ)
        / ((tasks.filter (fun t => t.user_id == uid)).length : ℚ) ≤ 1 :=
      (div_le_one htpos).mpr hcle
    have hratio0 : (0 : ℚ) ≤ ((tasks.filter (fun t => t.user_id == uid && t.is_completed)).length : ℚ)
        / ((tasks.filter (fun t => t.user_id == uid)).length : ℚ) := by positivity
    have hx0 : (0 : ℚ) ≤ ((tasks.filter (fun t => t.user_id == uid && t.is_completed)).length : ℚ)
        / ((tasks.filter (fun t => t.user_id == uid)).length : ℚ) * 100 * 100 := by positivity
    have hxB : ((tasks.filter (fun t => t.user_id == uid && t.is_completed)).length : ℚ)
        / ((tasks.filter (fun t => t.user_id == uid)).length : ℚ) * 100 * 100
        ≤ ((10000 : ℤ) : ℚ) := by push_cast; nlinarith
    have hlo := pgNumericToInt_nonneg _ hx0
    have hhi := pgNumericToInt_le_of_le _ 10000 hx0 hxB
    constructor
    · have : (0 : ℚ) ≤ (pgNumericToInt (((tasks.filter (fun t => t.user_id == uid && t.is_completed)).length : ℚ)
          / ((tasks.filter (fun t => t.user_id == uid)).length : ℚ) * 100 * 100) : ℚ) := by
        exact_mod_cast hlo
      linarith
    · have : (pgNumericToInt (((tasks.filter (fun t => t.user_id == uid && t.is_completed)).length : ℚ)
          / ((tasks.filter (fun t => t.user_id == uid)).length : ℚ) * 100 * 100) : ℚ)
          ≤ 10000 := by exact_mod_cast hhi
      linarith
· intro tasks uid h
  unfold get_task_completion_rate
  rw [if_pos h]
· have h := completion_rate_eval exampleTasksThree "u" 1 3 3333 rfl rfl
    (by decide)
    (pgNumericToInt_eq_of _ _ (by norm_num) (by norm_num) (by norm_num))
  rw [h]
  norm_num

/-- Witness for C7 at an owner with zero tasks. -/
theorem taskCompletionRate_spec_witness :
    get_task_completion_rate [exampleTaskA] "nobody" = 0 :=
taskCompletionRate_spec.2.1 [exampleTaskA] "nobody" (by decide)

/-! C9.  completed_at versus is_completed. -/

/-- The invariant C9 claims: is_completed = true exactly when
completed_at is present. -/
def taskInv (t : Task) : Prop :=
(t.is_completed = true → t.completed_at.isSome = true)
∧ (t.is_completed = false → t.completed_at = none)

/-- Counterexample to C9: a task row inserted with is_completed already
true has no completed_at - the task_completion_trigger is BEFORE UPDATE
only and does not fire on INSERT. -/
theorem task_inserted_completed_no_timestamp :
    (insertTask [] "u" "t1" { user_id := "u", title := "x", is_completed := true }).map
        (fun p => (p.1.is_completed, p.1.completed_at))
      = Except.ok (true, (none : Option Int)) :=
rfl

/-- The trigger preserves the C9 invariant across one UPDATE. -/
theorem updatedTaskRow_inv (t : Task) (u : TaskUpdate) (now : Int)
    (h : taskInv t) : taskInv (updatedTaskRow t u now) := by
have hca : (applyTaskUpdate t u).completed_at = t.completed_at := rfl
unfold updatedTaskRow set_task_completed_at
split
next hcond =>
  constructor
  · intro _
    rfl
  · intro hc
    have hnew : (applyTaskUpdate t u).is_completed = false := hc
    rw [Bool.and_eq_true] at hcond
    rw [hnew] at hcond
    exact Bool.noConfusion hcond.1
next hcond =>
  split
  next hc2 =>
    constructor
    · intro hc
      have hnew : (applyTaskUpdate t u).is_completed = true := hc
      rw [beq_iff_eq] at hc2
      rw [hnew] at hc2
      exact Bool.noConfusion hc2
    · intro _
      rfl
  next hc2 =>
    rw [beq_iff_eq] at hc2
    have hnew : (applyTaskUpdate t u).is_completed = true := by
      cases hb : (applyTaskUpdate t u).is_completed
      · exact absurd hb hc2
      · rfl
    have hold : t.is_completed = true := by
      cases hb : t.is_completed
      · exfalso
        apply hcond
        rw [hnew, hb]
        rfl
      · rfl
    constructor
    · intro _
      rw [hca]
      exact h.1 hold
    · intro hc
      have : (applyTaskUpdate t u).is_completed = false := hc
      rw [hnew] at this
      exact Bool.noConfusion this

/-- C9, amended: the completed_at trigger fires only on UPDATE.  Tasks
inserted with is_completed = false (as every task created through
TaskService.createTask is, its insert type not carrying is_completed)
satisfy the invariant at creation, and every update through the trigger
preserves it for the updated row and the whole store; but a task row
inserted with is_completed = true starts with completed_at absent,
violating the claimed invariant until its first update. -/
theorem task_completed_at_update_only :
    (∀ (db : List Task) (p newId : String) (ins : TaskRowInsert)
        (r : Task) (db' : List Task),
      ins.is_completed = false →
      insertTask db p newId ins = Except.ok (r, db') → taskInv r)
    ∧ (∀ (db : List Task) (p tid : String) (now : Int) (u : TaskUpdate)
        (r : Task) (db' : List Task),
      (∀ t ∈ db, taskInv t) →
      updateTask db p tid now u = Except.ok (r, db') →
      taskInv r ∧ ∀ t ∈ db', taskInv t)
    ∧ (∀ (db : List Task) (p newId : String) (ins : TaskRowInsert)
        (r : Task) (db' : List Task),
      ins.is_completed = true →
      insertTask db p newId ins = Except.ok (r, db') →
      r.is_completed = true ∧ r.completed_at = none) := by
refine ⟨?_, ?_, ?_⟩
· intro db p newId ins r db' hic h
  unfold insertTask at h
  split at h
  · split at h
    · rw [Except.ok.injEq, Prod.mk.injEq] at h
      rw [← h.1]
      refine ⟨fun hc => ?_, fun _ => rfl⟩
      have : ins.is_completed = true := hc
      rw [hic] at this
      exact Bool.noConfusion this
    · exact absurd h (by simp)
  · exact absurd h (by simp)
· intro db p tid now u r db' hall h
  unfold updateTask at h
  split at h
  case h_1 t hf =>
    split at h
    · rw [Except.ok.injEq, Prod.mk.injEq] at h
      have htmem : t ∈ db := by
        have : t ∈ db.filter (fun t => t.id == tid && t.user_id == p) := by
          rw [hf]; exact List.mem_singleton.mpr rfl
        exact (List.mem_filter.mp this).1
      have hinv := updatedTaskRow_inv t u now (hall t htmem)
      constructor
      · rw [← h.1]; exact hinv
      · intro x hx
        rw [← h.2] at hx
        rw [List.mem_map] at hx
        obtain ⟨a, ha, hax⟩ := hx
        by_cases hc : (a.id == tid && a.user_id == p) = true
        · rw [← hax]; simp only [hc, if_true]; exact hinv
        · rw [← hax]; simp only [hc, if_false]; exact hall a ha
    · exact absurd h (by simp)
  case h_2 => exact absurd h (by simp)
  case h_3 => exact absurd h (by simp)
· intro db p newId ins r db' hic h
  unfold insertTask at h
  split at h
  · split at h
    · rw [Except.ok.injEq, Prod.mk.injEq] at h
      rw [← h.1]
      exact ⟨hic, rfl⟩
    · exact absurd h (by simp)
  · exact absurd h (by simp)

/-- Witness for the amended C9 theorem: a task created with the service
defaults satisfies the invariant, and toggling it (an update) keeps the
invariant on the updated row. -/
theorem task_completed_at_update_only_witness :
    taskInv (insertedTaskRow "t2" { user_id := "u", title := "y" }) :=
task_completed_at_update_only.1 [] "u" "t2" { user_id := "u", title := "y" }
  _ _ rfl rfl

/-! C10.  Pagination of getUserSessions. -/

/-- C10: when a positive offset is supplied without a limit, the range
becomes offset .. offset + 9, so at most 10 rows come back (an
undocumented default page size of 10); and an offset of 0 is falsy in
the service code, so it is treated exactly like an absent offset (no
range applied). -/
theorem getUserSessions_paging :
    (∀ (db : List Session) (uid : String) (k : Nat) (ob : Option OrderKey)
        (od : Option OrderDir) (dr : Option (Int × Int)),
      (getUserSessions db uid
        { limit := none, offset := some (k + 1), orderBy := ob,
          orderDirection := od, dateRange := dr }).length ≤ 10)
    ∧ (∀ (db : List Session) (uid : String) (opts : SessionQueryOptions),
      getUserSessions db uid { opts with offset := some 0 }
        = getUserSessions db uid { opts with offset := none }) := by
constructor
· intro db uid k ob od dr
  have hoff : jsTruthy (some (k + 1)) = true := by simp [jsTruthy]
  have hlim : jsTruthy none = false := rfl
  simp only [getUserSessions, hoff, hlim, if_true, if_false,
    Option.getD_some]
  exact le_trans (List.length_take_le _ _) (le_refl 10)
· intro db uid opts
  rfl

/-! C5.  Ending a session twice. -/

theorem filter_map_if_nil {α : Type} (p : α → Bool) (s' : α) :
    ∀ l : List α, l.filter p = [] →
      (l.map (fun r => if p r then s' else r)).filter p = [] := by
intro l
induction l with
| nil => intro _; rfl
| cons a t ih =>
  intro h
  cases hpa : p a with
  | true => rw [List.filter_cons, if_pos hpa] at h; exact absurd h (by simp)
  | false =>
    rw [List.filter_cons, if_neg (by simp [hpa])] at h
    rw [List.map_cons]
    have ha : (if p a = true then s' else a) = a := by simp [hpa]
    rw [ha, List.filter_cons, if_neg (by simp [hpa])]
    exact ih h

theorem filter_map_if_single {α : Type} (p : α → Bool) (s s' : α)
    (hp' : p s' = true) :
    ∀ l : List α, l.filter p = [s] →
      (l.map (fun r => if p r then s' else r)).filter p = [s'] := by
intro l
induction l with
| nil => intro h; exact absurd h (by simp)
| cons a t ih =>
  intro h
  cases hpa : p a with
  | true =>
    rw [List.filter_cons, if_pos hpa] at h
    rw [List.cons.injEq] at h
    rw [List.map_cons]
    have ha : (if p a = true then s' else a) = s' := by simp [hpa]
    rw [ha, List.filter_cons, if_pos hp', filter_map_if_nil p s' t h.2]
  | false =>
    rw [List.filter_cons, if_neg (by simp [hpa])] at h
    rw [List.map_cons]
    have ha : (if p a = true then s' else a) = a := by simp [hpa]
    rw [ha, List.filter_cons, if_neg (by simp [hpa])]
    exact ih h

theorem map_if_eq_self {α : Type} (p : α → Bool) (s' : α) (l : List α)
    (h : ∀ a ∈ l, p a = true → a = s') :
    l.map (fun r => if p r then s' else r) = l := by
induction l with
| nil => rfl
| cons a t ih =>
  rw [List.map_cons]
  have ha : (if p a = true then s' else a) = a := by
    cases hpa : p a
    · simp [hpa]
    · simp only [hpa, if_true]
      exact (h a (by simp) hpa).symm
  rw [ha, ih (fun x hx hpx => h x (by simp [hx]) hpx)]

theorem applySessionUpdate_idem (s : Session) (u : StudySessionUpdate) :
    applySessionUpdate (applySessionUpdate s u) u = applySessionUpdate s u := by
cases u with
| mk e n m p =>
  cases e <;> cases n <;> cases m <;> cases p <;> simp [applySessionUpdate]

theorem calc_of_end_some (s : Session) (e : Int) (he : s.end_time = some e) :
    calculate_session_duration s
      = { s with
          duration_minutes := some (pgNumericToInt (((e : ℚ) - (s.start_time : ℚ)) / 60)) } := by
simp [calculate_session_duration, he]

theorem calc_idem (s : Session) :
    calculate_session_duration (calculate_session_duration s)
      = calculate_session_duration s := by
cases h : s.end_time with
| none => simp [calculate_session_duration, h]
| some e => simp [calculate_session_duration, h]

theorem applySessionUpdate_set_duration (s : Session)
    (u : StudySessionUpdate) (d : Option Int) :
    applySessionUpdate { s with duration_minutes := d } u
      = { applySessionUpdate s u with duration_minutes := d } := rfl

theorem updatedRow_idem (s : Session) (u : StudySessionUpdate) :
    updatedRow (updatedRow s u) u = updatedRow s u := by
unfold updatedRow
have key : applySessionUpdate (calculate_session_duration (applySessionUpdate s u)) u
    = calculate_session_duration (applySessionUpdate s u) := by
  cases hy : (applySessionUpdate s u).end_time with
  | none =>
    have hid : calculate_session_duration (applySessionUpdate s u)
        = applySessionUpdate s u := by
      simp [calculate_session_duration, hy]
    rw [hid, applySessionUpdate_idem]
  | some e =>
    rw [calc_of_end_some _ e hy, applySessionUpdate_set_duration,
        applySessionUpdate_idem]
rw [key, calc_idem]

theorem updatedRow_cond (s : Session) (u : StudySessionUpdate)
    (sid p : String) (hc : (s.id == sid && s.user_id == p) = true) :
    ((updatedRow s u).id == sid && (updatedRow s u).user_id == p) = true := by
unfold updatedRow
rw [Bool.and_eq_true, beq_iff_eq, beq_iff_eq] at hc ⊢
rw [calc_id, calc_user_id]
exact hc

/-- A successful updateSession whose payload carries end_time = v yields
a row with that end_time and the recomputed duration. -/
theorem updateSession_sets_end (db : List Session) (p sid : String)
    (v : Int) (u : StudySessionUpdate) (hu : u.end_time = some (some v))
    (r : Session) (db' : List Session)
    (h : updateSession db p sid u = Except.ok (r, db')) :
    r.end_time = some v
    ∧ r.duration_minutes
        = some (pgNumericToInt (((v : ℚ) - (r.start_time : ℚ)) / 60)) := by
unfold updateSession at h
split at h
case h_1 s hf =>
  split at h
  · rw [Except.ok.injEq, Prod.mk.injEq] at h
    have he : (updatedRow s u).end_time = some v := by
      unfold updatedRow
      rw [calc_end_time]
      show u.end_time.getD s.end_time = some v
      rw [hu]
      rfl
    refine ⟨?_, ?_⟩
    · rw [← h.1]; exact he
    · rw [← h.1]
      unfold updatedRow at he ⊢
      exact calc_shape _ v he
  · exact absurd h (by simp)
case h_2 => exact absurd h (by simp)
case h_3 => exact absurd h (by simp)

/-- Re-running the same UPDATE payload on the updated store is a
no-op: the same row and store come back. -/
theorem updateSession_idem (db : List Session) (p sid : String)
    (u : StudySessionUpdate) (r : Session) (db' : List Session)
    (h : updateSession db p sid u = Except.ok (r, db')) :
    updateSession db' p sid u = Except.ok (r, db') := by
unfold updateSession at h ⊢
split at h
case h_1 s hf =>
  split at h
  case isTrue hchk =>
    rw [Except.ok.injEq, Prod.mk.injEq] at h
    obtain ⟨h1, h2⟩ := h
    have hs : s ∈ db.filter (fun s => s.id == sid && s.user_id == p) := by
      rw [hf]; exact List.mem_singleton.mpr rfl
    have hpcond := (List.mem_filter.mp hs).2
    have hpr := updatedRow_cond s u sid p hpcond
    have hfilter' : db'.filter (fun s => s.id == sid && s.user_id == p)
        = [updatedRow s u] := by
      rw [← h2]
      exact filter_map_if_single _ s _ hpr db hf
    rw [hfilter']
    dsimp only
    rw [updatedRow_idem, if_pos hchk]
    have hmap : db'.map (fun x =>
        if x.id == sid && x.user_id == p then updatedRow s u else x) = db' := by
      apply map_if_eq_self
      intro a ha hpa
      have hmem : a ∈ db'.filter (fun s => s.id == sid && s.user_id == p) :=
        List.mem_filter.mpr ⟨ha, hpa⟩
      rw [hfilter'] at hmem
      exact List.mem_singleton.mp hmem
    rw [hmap, h1]
  case isFalse => exact absurd h (by simp)
case h_2 => exact absurd h (by simp)
case h_3 => exact absurd h (by simp)

/-- Counterexample to C5: ending the same session of user u at time 600
and then again at time 900 persists end_time 600 after the first call
and end_time 900 after the second - the second call on the already
ENDED session is not a no-op, it overwrites the stored end_time with
the new clock value. -/
theorem endSession_overwrites_cex :
    (endSession [exampleActiveU] "u" "s2" 600 {}).bind
        (fun p1 => (endSession p1.2 "u" "s2" 900 {}).map
          (fun p2 => (p1.1.end_time, p2.1.end_time)))
      = Except.ok (some 600, some 900)
    ∧ some (600 : Int) ≠ some (900 : Int) :=
⟨rfl, by decide⟩

/-- C5, amended: endSession always overwrites end_time with the calling
moment's clock value and recomputes duration_minutes from it
(last-writer-wins), so ending an already-ended session is only a no-op
when the clock reads the same instant: with the same now (and the same
data) the second call returns exactly the same persisted row and store
as the first. -/
theorem endSession_last_writer_wins :
    (∀ (db : List Session) (p sid : String) (now : Int)
        (d : EndSessionData) (r : Session) (db' : List Session),
      endSession db p sid now d = Except.ok (r, db') →
      r.end_time = some now
      ∧ r.duration_minutes
          = some (pgNumericToInt (((now : ℚ) - (r.start_time : ℚ)) / 60)))
    ∧ (∀ (db : List Session) (p sid : String) (now : Int)
        (d : EndSessionData) (r : Session) (db' : List Session),
      endSession db p sid now d = Except.ok (r, db') →
      endSession db' p sid now d = Except.ok (r, db')) := by
constructor
· intro db p sid now d r db' h
  exact updateSession_sets_end db p sid now _ rfl r db' h
· intro db p sid now d r db' h
  exact updateSession_idem db p sid _ r db' h

/-- Witness for the amended C5 theorem: ending the active session at
time 600 persists end_time 600 with duration 10 minutes. -/
theorem endSession_last_writer_wins_witness :
    ∃ (r : Session) (db' : List Session),
      endSession [exampleActiveU] "u" "s2" 600 {} = Except.ok (r, db')
      ∧ r.end_time = some 600 := by
refine ⟨updatedRow exampleActiveU
  { end_time := some (some 600), mood_rating := none,
    productivity_rating := none, session_notes := none },
  _, rfl, ?_⟩
exact (endSession_last_writer_wins.1 [exampleActiveU] "u" "s2" 600 {}
  _ _ rfl).1

end LockedIn
